import Mathlib

/-!
Verification of the convex-tracer repository against its specification.

This file shallowly embeds the trace/span/log persistence layer
(`src/component/lib.ts`), the lifecycle helpers (`setupTraceContext`,
`executeTracedHandler` in the client helpers file) and the client tracing API
(`TracingAPI` in the client api file) as executable Lean definitions, and
proves or refutes the frozen claims about them.

Modelling conventions:
- JavaScript numbers are modelled as `ℚ`; document ids as `String`
  (a JavaScript string is truthy exactly when it is non-empty).
- Open metadata bags are association lists with shallow merge; trace and log
  metadata and the `updatedAt` timestamp are omitted, since no claim mentions
  them and no modelled control path branches on them.
- A Convex table is a list of records; `db.patch` on an absent id throws,
  which is modelled with `Except`; patches wrapped in `.catch` at the call
  site are modelled as returning the unchanged storage on error.
- An `await`ed sub-mutation completes before the next operation is issued;
  a floating (un-`await`ed) call is issued but its completion is not
  sequenced before later operations.  The failure path of
  `executeTracedHandler` records each issued operation together with this
  `awaited` flag.
-/

namespace ConvexTracer

/-- `pending | success | error`, the status validator of the component schema. -/
inductive Status where
  | pending
  | success
  | error
deriving Repr, DecidableEq

/-- `info | warn | error`, the severity validator of the component schema. -/
inductive Severity where
  | info
  | warn
  | error
deriving Repr, DecidableEq

/-- `frontend | backend`, the source validator of the component schema. -/
inductive Source where
  | frontend
  | backend
deriving Repr, DecidableEq

/-- One row of the `traces` table (metadata and `updatedAt` omitted, see header). -/
structure Trace where
  id : String
  status : Status
  sampleRate : ℚ
  preserve : Option Bool
  userId : Option String
deriving Repr, DecidableEq

/-- One row of the `spans` table (metadata omitted, see header).
`creationTime` models the platform-assigned `_creationTime` field. -/
structure Span where
  id : String
  traceId : String
  parentSpanId : Option String
  creationTime : ℚ
  spanName : String
  functionName : Option String
  startTime : ℚ
  endTime : Option ℚ
  duration : Option ℚ
  status : Status
  result : Option Nat
  error : Option String
  metadata : List (String × String)
deriving Repr, DecidableEq

/-- One row of the `logs` table (metadata omitted, see header). -/
structure Log where
  id : String
  spanId : String
  timestamp : ℚ
  severity : Severity
  message : String
deriving Repr, DecidableEq

/-- The component's database: the three tables plus the id supply that stands
for the platform's unique-id generation. -/
structure Storage where
  traces : List Trace
  spans : List Span
  logs : List Log
  nextId : Nat
deriving Repr, DecidableEq

/-- `ctx.db.get("traces", traceId)`. -/
def findTrace (st : Storage) (tid : String) : Option Trace :=
  st.traces.find? (fun t => t.id == tid)

/-- `ctx.db.get("spans", spanId)`. -/
def findSpan (st : Storage) (sid : String) : Option Span :=
  st.spans.find? (fun s => s.id == sid)

/-- The `verifyTrace` query of `component/lib.ts`. -/
def verifyTrace (st : Storage) (tid : String) : Bool :=
  (findTrace st tid).isSome

/-- The `verifySpan` query of `component/lib.ts`. -/
def verifySpan (st : Storage) (sid : String) : Bool :=
  (findSpan st sid).isSome

/-- Ids of the spans returned by the `by_traceId` index scan used in
`deleteTrace` and `getTrace`. -/
def spanIdsOfTrace (st : Storage) (tid : String) : List String :=
  (st.spans.filter (fun s => s.traceId == tid)).map Span.id

/-- The `deleteTrace` helper of `component/lib.ts`: deletes every log of every
span of the trace, every span of the trace, and the trace record itself
(each `ctx.db.delete` removes the record with that id). -/
def deleteTrace (st : Storage) (tid : String) : Storage :=
  let sids := spanIdsOfTrace st tid
  { st with
    logs := st.logs.filter (fun l => !(sids.contains l.spanId))
    spans := st.spans.filter (fun s => !(s.traceId == tid))
    traces := st.traces.filter (fun t => !(t.id == tid)) }

/-- The `cleanupTrace` mutation of `component/lib.ts`.  `random` is the value
drawn by `Math.random()`, uniform in `[0,1)`. -/
def cleanupTrace (st : Storage) (tid : String) (random : ℚ) : Storage :=
  match findTrace st tid with
  | none => st
  | some tr =>
    if tr.preserve = some true then st
    else if tr.preserve = some false then deleteTrace st tid
    else if tr.sampleRate ≤ random then deleteTrace st tid
    else st

/-- `ctx.db.patch("traces", traceId, ...)`: throws when the trace is absent. -/
def patchTrace (st : Storage) (tid : String) (f : Trace → Trace) :
    Except String Storage :=
  if verifyTrace st tid then
    .ok { st with traces := st.traces.map (fun t => if t.id == tid then f t else t) }
  else
    .error "patch: document not found"

/-- The `updateTracePreserve` mutation of `component/lib.ts`.  The patch sets
`preserve` to the given value (patching a field to `undefined` removes it);
the sample rate is added to the patch only under `if (sampleRate)`, i.e. only
when the argument is present and truthy (non-zero). -/
def updateTracePreserve (st : Storage) (tid : String) (preserve : Option Bool)
    (sampleRate : Option ℚ) : Except String Storage :=
  patchTrace st tid (fun t =>
    { t with
      preserve := preserve
      sampleRate :=
        match sampleRate with
        | some r => if r ≠ 0 then r else t.sampleRate
        | none => t.sampleRate })

/-- `TracingAPI.sample(sampleRate?)` of the client api file: runs
`updateTracePreserve` with `preserve: undefined` and the optional rate
override; a failure of the mutation is swallowed by `.catch`. -/
def tracerSample (st : Storage) (traceId : String) (rateOverride : Option ℚ) :
    Storage :=
  match updateTracePreserve st traceId none rateOverride with
  | .ok st' => st'
  | .error _ => st

/-- The arguments object of the `createTrace` mutation (metadata, an optional
field that no claim mentions, is omitted). -/
structure CreateTraceArgs where
  status : Status
  sampleRate : ℚ
  source : Source
  userId : Option String
deriving Repr, DecidableEq

/-- The argument validator of the `createTrace` mutation in
`component/lib.ts`: `userId: v.union(v.literal("anonymous"), v.string())` is a
required field, so validation passes only when the caller supplies it. -/
def createTraceArgsValid (a : CreateTraceArgs) : Bool :=
  a.userId.isSome

/-- The argument object that `setupTraceContext` (root branch, client helpers
file) passes to `createTrace`: status, sample rate, metadata and source only —
no `userId` field. -/
def setupCreateTraceCall (sampleRate : ℚ) : CreateTraceArgs :=
  { status := .pending, sampleRate := sampleRate, source := .backend, userId := none }

/-- The span object argument of the `createSpan` mutation. -/
structure SpanData where
  parentSpanId : Option String
  spanName : String
  startTime : ℚ
  status : Status
  functionName : Option String
deriving Repr, DecidableEq

/-- The platform-assigned id for the next inserted document. -/
def genId (st : Storage) : String :=
  "id" ++ toString st.nextId

/-- The `createSpan` mutation of `component/lib.ts`: inserts a span row.  The
stored parent is `args.span.parentSpanId ? (cast) : undefined`, i.e. the given
parent id when it is truthy (present and non-empty) and absent otherwise.
`creationTime` is the platform-assigned `_creationTime`. -/
def createSpan (st : Storage) (traceId : String) (d : SpanData)
    (creationTime : ℚ) : String × Storage :=
  let sid := genId st
  (sid,
    { st with
      nextId := st.nextId + 1
      spans := st.spans ++
        [{ id := sid
           traceId := traceId
           parentSpanId :=
             match d.parentSpanId with
             | some p => if p ≠ "" then some p else none
             | none => none
           creationTime := creationTime
           spanName := d.spanName
           functionName := d.functionName
           startTime := d.startTime
           endTime := none
           duration := none
           status := d.status
           result := none
           error := none
           metadata := [] }] })

/-- The trace context token carried in `__traceContext`: `traceId` and
`spanId` are required strings of the token validator, the remaining three
fields are optional. -/
structure TraceContext where
  traceId : String
  spanId : String
  sampleRate : Option ℚ
  retentionMinutes : Option ℚ
  preserveErrors : Option Bool
deriving Repr, DecidableEq

/-- What `setupTraceContext` resolves for one invocation. -/
structure SetupResult where
  traceId : String
  spanId : String
  traceContext : TraceContext
  isRoot : Bool
deriving Repr, DecidableEq

/-- `setupTraceContext` of the client helpers file.  With an inbound token
whose `traceId` is truthy, a child span parented at the token's `spanId` is
created under the token's trace and the outbound token copies the token's
`sampleRate`/`retentionMinutes`/`preserveErrors` unchanged.  Otherwise the
root branch calls the `createTrace` mutation without the required `userId`
argument (see `setupCreateTraceCall`), so the call is rejected by argument
validation and the error propagates. -/
def setupTraceContext (st : Storage) (existing : Option TraceContext)
    (startTime : ℚ) (functionName : String) (_sampleRate _retentionMinutes : ℚ)
    (_preserveErrors : Bool) (spanFunctionName : Option String) (now : ℚ) :
    Except String (SetupResult × Storage) :=
  match existing with
  | some tc =>
    if tc.traceId ≠ "" then
      let (sid, st') := createSpan st tc.traceId
        { parentSpanId := some tc.spanId
          spanName := functionName
          startTime := startTime
          status := .pending
          functionName := spanFunctionName } now
      .ok
        ({ traceId := tc.traceId
           spanId := sid
           traceContext :=
             { traceId := tc.traceId
               spanId := sid
               sampleRate := tc.sampleRate
               retentionMinutes := tc.retentionMinutes
               preserveErrors := tc.preserveErrors }
           isRoot := false }, st')
    else
      .error "ArgumentValidationError: missing required field userId in createTrace"
  | none =>
    .error "ArgumentValidationError: missing required field userId in createTrace"

/-- A before/success/error hook of a traced function: absent, present and
returning normally, or present and throwing with the given message. -/
inductive HookSpec where
  | absent
  | ok
  | throws (msg : String)
deriving Repr, DecidableEq

/-- `true` when running the hook does not throw. -/
def HookSpec.noThrow : HookSpec → Bool
  | .throws _ => false
  | _ => true

/-- The wrapped handler's behaviour on this invocation: return a value or
throw with the given message. -/
inductive HandlerSpec where
  | returns (d : Nat)
  | throws (msg : String)
deriving Repr, DecidableEq

/-- The tagged result union returned by the wrapper. -/
structure TracedResult where
  success : Bool
  data : Option Nat
  error : Option String
deriving Repr, DecidableEq

/-- The per-call options of a traced function that `executeTracedHandler`
reads (hooks, per-call overrides, `logReturn`). -/
structure ExecConfig where
  onStart : HookSpec
  onSuccess : HookSpec
  onError : HookSpec
  preserveErrors : Option Bool
  sampleRate : Option ℚ
  retentionMinutes : Option ℚ
  logReturn : Bool
deriving Repr, DecidableEq

/-- The tracer-wide `Required<TracerConfig>` read from the enhanced context's
tracing api (every field filled in at `Tracer` construction). -/
structure DefaultConfig where
  sampleRate : ℚ
  retentionMinutes : ℚ
  preserveErrors : Bool
deriving Repr, DecidableEq

/-- One operation issued by `executeTracedHandler`; `awaited` is `false` for a
floating call whose completion is not sequenced before later operations. -/
inductive Event where
  | updateTracePreserve (traceId : String) (preserve : Option Bool) (awaited : Bool)
  | completeSpan (spanId : String) (status : Status) (awaited : Bool)
  | updateTraceStatus (traceId : String) (status : Status) (awaited : Bool)
  | scheduleCleanup (traceId : String) (delayMs : ℚ)
deriving Repr, DecidableEq

/-- Everything observable about one `executeTracedHandler` run: the returned
result (`none` when an error escaped to the caller instead), the escaped
error, the eventual storage, the issued operations in issue order, the
scheduled cleanup delay, and whether the handler was executed. -/
structure ExecOutcome where
  result : Option TracedResult
  thrown : Option String
  st : Storage
  events : List Event
  cleanupScheduled : Option ℚ
  handlerRan : Bool
deriving Repr, DecidableEq

/-- Effect of the `completeSpan` mutation; a patch of an absent id throws but
every call site wraps it in `.catch`, so the storage is simply unchanged. -/
def completeSpanPatch (st : Storage) (sid : String) (endTime duration : ℚ)
    (status : Status) (result : Option Nat) (error : Option String) : Storage :=
  { st with
    spans := st.spans.map (fun s =>
      if s.id == sid then
        { s with
          endTime := some endTime
          duration := some duration
          status := status
          result := result
          error := error }
      else s) }

/-- Effect of the `updateTraceStatus` mutation (call sites swallow failures). -/
def updateTraceStatusPatch (st : Storage) (tid : String) (status : Status) :
    Storage :=
  { st with
    traces := st.traces.map (fun t =>
      if t.id == tid then { t with status := status } else t) }

/-- Effect of `TracingAPI.preserve()`: `updateTracePreserve` with
`preserve: true` and no sample rate (failures swallowed by `.catch`). -/
def tracerPreservePatch (st : Storage) (tid : String) : Storage :=
  { st with
    traces := st.traces.map (fun t =>
      if t.id == tid then { t with preserve := some true } else t) }

/-- The `try` part of `executeTracedHandler`: the forged-id checks on the
`traceId`/`spanId` it was given, then `onStart`, then the handler, then
`onSuccess`; the first component records whether the handler was executed. -/
def tryPhase (st : Storage) (traceId spanId : String) (config : ExecConfig)
    (handler : HandlerSpec) : Bool × Except String Nat :=
  if traceId ≠ "" ∧ verifyTrace st traceId = false then
    (false, .error "Cannot pass a traceId for a trace that doesn't exist")
  else if spanId ≠ "" ∧ verifySpan st spanId = false then
    (false, .error "Cannot pass a spanId for a span that doesn't exist")
  else
    match config.onStart with
    | .throws m => (false, .error m)
    | _ =>
      match handler with
      | .throws m => (true, .error m)
      | .returns d =>
        match config.onSuccess with
        | .throws m => (true, .error m)
        | _ => (true, .ok d)

/-- The success continuation of `executeTracedHandler`: complete the span with
`success` (persisting the result only under `logReturn`), and when root also
set the trace status; both mutations awaited. -/
def successPath (st : Storage) (traceId spanId : String) (isRoot : Bool)
    (config : ExecConfig) (startTime now : ℚ) (d : Nat) :
    Storage × List Event :=
  let st1 := completeSpanPatch st spanId now (now - startTime) .success
    (if config.logReturn then some d else none) none
  let st2 := if isRoot then updateTraceStatusPatch st1 traceId .success else st1
  let evs := Event.completeSpan spanId .success true ::
    (if isRoot then [Event.updateTraceStatus traceId .success true] else [])
  (st2, evs)

/-- The `catch` block of `executeTracedHandler`.  When `onError` itself throws
the rest of the block is skipped and that error escapes (after `finally`).
Otherwise: when the effective preserve-errors flag is true,
`tracerAPI.preserve()` is issued as a floating call (not awaited); then the
span is completed with `error` (awaited); then, when root, the trace status is
set (awaited); and the structured failure value is returned. -/
def catchPath (st : Storage) (traceId spanId : String) (isRoot : Bool)
    (config : ExecConfig) (default : DefaultConfig) (startTime now : ℚ)
    (errMsg : String) :
    Option TracedResult × Option String × Storage × List Event :=
  match config.onError with
  | .throws m => (none, some m, st, [])
  | _ =>
    let preserveErrors := config.preserveErrors.getD default.preserveErrors
    let st1 := if preserveErrors then tracerPreservePatch st traceId else st
    let st2 := completeSpanPatch st1 spanId now (now - startTime) .error
      none (some errMsg)
    let st3 := if isRoot then updateTraceStatusPatch st2 traceId .error else st2
    let evs :=
      (if preserveErrors then [Event.updateTracePreserve traceId (some true) false]
        else []) ++
      Event.completeSpan spanId .error true ::
      (if isRoot then [Event.updateTraceStatus traceId .error true] else [])
    (some ⟨false, none, some errMsg⟩, none, st3, evs)

/-- The `finally` block of `executeTracedHandler`: with effective
`retMins := config.retentionMinutes ?? defaultConfig.retentionMinutes` and
`sampleRate := config.sampleRate ?? defaultConfig.sampleRate`, a cleanup job
is scheduled after `(retMins ?? 120) * 60_000` ms only when `sampleRate` is
truthy (non-zero) and `< 1`; returns the scheduled delay. -/
def finallyScheduling (config : ExecConfig) (default : DefaultConfig) :
    Option ℚ :=
  let retMins := config.retentionMinutes.getD default.retentionMinutes
  let sampleRate := config.sampleRate.getD default.sampleRate
  if sampleRate ≠ 0 ∧ sampleRate < 1 then some (retMins * 60000) else none

/-- `executeTracedHandler` of the client helpers file, assembled from
`tryPhase`, `successPath`, `catchPath` and `finallyScheduling`. -/
def executeTracedHandler (st : Storage) (traceId spanId : String)
    (isRoot : Bool) (config : ExecConfig) (default : DefaultConfig)
    (handler : HandlerSpec) (startTime now : ℚ) : ExecOutcome :=
  let ran := (tryPhase st traceId spanId config handler).1
  let sched := finallyScheduling config default
  let schedEvents :=
    match sched with
    | some d => [Event.scheduleCleanup traceId d]
    | none => []
  match (tryPhase st traceId spanId config handler).2 with
  | .ok d =>
    let p := successPath st traceId spanId isRoot config startTime now d
    { result := some ⟨true, some d, none⟩
      thrown := none
      st := p.1
      events := p.2 ++ schedEvents
      cleanupScheduled := sched
      handlerRan := ran }
  | .error m =>
    let p := catchPath st traceId spanId isRoot config default startTime now m
    { result := p.1
      thrown := p.2.1
      st := p.2.2.1
      events := p.2.2.2 ++ schedEvents
      cleanupScheduled := sched
      handlerRan := ran }

/-- The registered function built by `createTracedHandler` (wrapper file):
extract the inbound token, resolve the trace context (per-call overrides
falling back to the tracer-wide defaults), then run `executeTracedHandler`
on the resolved ids; an error thrown by `setupTraceContext` escapes the
wrapper unhandled. -/
def createTracedHandlerRun (st : Storage) (token : Option TraceContext)
    (functionName : String) (config : ExecConfig) (default : DefaultConfig)
    (handler : HandlerSpec) (startTime now : ℚ) : Except String ExecOutcome :=
  match setupTraceContext st token startTime functionName
      (config.sampleRate.getD default.sampleRate)
      (config.retentionMinutes.getD default.retentionMinutes)
      (config.preserveErrors.getD default.preserveErrors)
      (some functionName) now with
  | .error e => .error e
  | .ok (res, st') =>
    .ok (executeTracedHandler st' res.traceId res.spanId res.isRoot config
      default handler startTime now)

/-- The `addLog` mutation of `component/lib.ts`: throws when the span is
absent, otherwise inserts a log row owned by that span. -/
def addLog (st : Storage) (sid : String) (timestamp : ℚ) (severity : Severity)
    (message : String) : Except String Storage :=
  if verifySpan st sid then
    .ok
      { st with
        nextId := st.nextId + 1
        logs := st.logs ++
          [{ id := genId st, spanId := sid, timestamp := timestamp,
             severity := severity, message := message }] }
  else
    .error ("Span not found: " ++ sid)

/-- Shallow merge `{ ...old, ...patch }` of two association lists: keys of the
patch overwrite, other keys are retained. -/
def mergeMeta (old patch : List (String × String)) :
    List (String × String) :=
  old.filter (fun kv => !(patch.any (fun kv2 => kv2.1 == kv.1))) ++ patch

/-- The `updateSpanMetadata` mutation of `component/lib.ts`: throws when the
span is absent, otherwise shallow-merges into the span's metadata. -/
def updateSpanMetadata (st : Storage) (sid : String)
    (patch : List (String × String)) : Except String Storage :=
  if verifySpan st sid then
    .ok
      { st with
        spans := st.spans.map (fun s =>
          if s.id == sid then { s with metadata := mergeMeta s.metadata patch }
          else s) }
  else
    .error ("Span not found: " ++ sid)

/-- The handle a `withSpan` block receives: either the api of
`createSpanAPI(childSpanId)`, scoped to a persisted span, or the
non-persisting stand-in of `createNoOpSpanAPI()`. -/
inductive SpanHandle where
  | real (spanId : String)
  | noOp
deriving Repr, DecidableEq

/-- The `info`/`warn`/`error` operation of a span handle: on a real handle an
`addLog` call whose failure is swallowed by `.catch`; on the stand-in,
`async () => {}`. -/
def SpanHandle.logOp (h : SpanHandle) (st : Storage) (timestamp : ℚ)
    (severity : Severity) (message : String) : Storage :=
  match h with
  | .real sid =>
    match addLog st sid timestamp severity message with
    | .ok st' => st'
    | .error _ => st
  | .noOp => st

/-- The `updateMetadata` operation of a span handle: on a real handle an
`updateSpanMetadata` call whose failure is swallowed; on the stand-in,
`async () => {}`. -/
def SpanHandle.updateMetadataOp (h : SpanHandle) (st : Storage)
    (patch : List (String × String)) : Storage :=
  match h with
  | .real sid =>
    match updateSpanMetadata st sid patch with
    | .ok st' => st'
    | .error _ => st
  | .noOp => st

/-- A `withSpan` block: given the handle for the child span and the current
storage, it produces the updated storage and either its return value
(`Option Nat`, `none` standing for `undefined`) or a thrown error. -/
def SpanBlock : Type :=
  SpanHandle → Storage → Storage × Except String (Option Nat)

/-- `TracingAPI.createAndRunSpan` of the client api file.  `createFails`
models a failure of the `createSpan` infrastructure call: in that case the
block still runs, against the stand-in handle of `createNoOpSpanAPI()`.
Otherwise the block runs against the real child-span handle; on normal return
the child span is completed with `success`, on a throw it is completed with
`error`, the trace is preserved when the tracer config says `preserveErrors`
(a floating `this.preserve()` call), and the error is re-raised. -/
def createAndRunSpan (st : Storage) (traceId parentSpanId spanName : String)
    (preserveErrors : Bool) (createFails : Bool) (startTime now : ℚ)
    (fn : SpanBlock) : Storage × Except String (Option Nat) :=
  if createFails then
    fn .noOp st
  else
    let p := createSpan st traceId
      { parentSpanId := some parentSpanId
        spanName := spanName
        startTime := startTime
        status := .pending
        functionName := none } now
    match fn (.real p.1) p.2 with
    | (st2, .ok v) =>
      (completeSpanPatch st2 p.1 now (now - startTime) .success none none, .ok v)
    | (st2, .error m) =>
      let st3 := completeSpanPatch st2 p.1 now (now - startTime) .error none (some m)
      let st4 := if preserveErrors then tracerPreservePatch st3 traceId else st3
      (st4, .error m)

/-- The `withSpan` operation of a span handle: on a real handle it is
`createAndRunSpan` parented at that handle's span; on the stand-in of
`createNoOpSpanAPI()` it is `async <T>(): Promise<T> => undefined as any` —
the block argument is ignored and `undefined` is returned. -/
def SpanHandle.withSpanOp (h : SpanHandle) (st : Storage) (traceId spanName : String)
    (preserveErrors createFails : Bool) (startTime now : ℚ) (fn : SpanBlock) :
    Storage × Except String (Option Nat) :=
  match h with
  | .real sid =>
    createAndRunSpan st traceId sid spanName preserveErrors createFails
      startTime now fn
  | .noOp => (st, .ok none)

/-- `a._creationTime ≤ b._creationTime`, the comparator
`(a, b) => a._creationTime - b._creationTime` of `getTrace`'s sorts. -/
def spanLE (a b : Span) : Prop :=
  a.creationTime ≤ b.creationTime

instance : DecidableRel spanLE := fun a b =>
  inferInstanceAs (Decidable (a.creationTime ≤ b.creationTime))

instance : IsTotal Span spanLE :=
  ⟨fun a b => le_total a.creationTime b.creationTime⟩

instance : IsTrans Span spanLE :=
  ⟨fun _ _ _ h1 h2 => le_trans h1 h2⟩

/-- A stable ascending sort by `_creationTime` (JavaScript `Array.sort` with
the numeric comparator is a stable ascending sort). -/
def childSort (l : List Span) : List Span :=
  List.insertionSort spanLE l

/-- The logs attached to a span in `getTrace`: the `by_spanId` index scan. -/
def logsFor (logs : List Log) (sid : String) : List Log :=
  logs.filter (fun l => l.spanId == sid)

/-- One node of the span tree returned by `getTrace`. -/
structure SpanNode where
  span : Span
  logs : List Log
  children : List SpanNode

/-- The span tree `getTrace` returns below one span: its logs, and its
children — the spans of the trace whose `parentSpanId` is its id, in ascending
creation order, each carrying its own subtree.  The fuel argument only renders
the recursion structural; `getTrace` passes fuel `tspans.length`, which is
shown sufficient for every reachable node (`buildNode_nodeCorrect`). -/
def buildNode (tspans : List Span) (logs : List Log) :
    Nat → Span → SpanNode
  | 0, s => ⟨s, logsFor logs s.id, []⟩
  | fuel + 1, s =>
    ⟨s, logsFor logs s.id,
      (childSort (tspans.filter (fun c => c.parentSpanId == some s.id))).map
        (buildNode tspans logs fuel)⟩

/-- The value returned by `getTrace` for an existing trace: the trace record
and the forest of its root spans. -/
structure CompleteTrace where
  trace : Trace
  spans : List SpanNode

/-- The `getTrace` query of `component/lib.ts`: `null` when the trace does not
exist; otherwise the trace with the spans of the trace assembled into a tree —
roots are the spans without a parent, every child list is sorted by ascending
creation time, and every span carries the logs whose `spanId` is its id. -/
def getTrace (st : Storage) (tid : String) : Option CompleteTrace :=
  match findTrace st tid with
  | none => none
  | some tr =>
    let tspans := st.spans.filter (fun s => s.traceId == tid)
    let roots := childSort (tspans.filter (fun s => s.parentSpanId == none))
    some ⟨tr, roots.map (buildNode tspans st.logs tspans.length)⟩

/-- Database invariant: a span's parent was inserted before it, so its
platform-assigned `_creationTime` is strictly smaller. -/
def ParentBefore (spans : List Span) : Prop :=
  ∀ c ∈ spans, ∀ p ∈ spans, c.parentSpanId = some p.id →
    p.creationTime < c.creationTime

/-- Correctness of one returned span node with respect to the flat stored
data: its logs are exactly the stored logs it owns, its children are exactly
the stored spans of the trace whose `parentSpanId` is its id, in ascending
creation order, and the same holds below. -/
inductive NodeCorrect (tspans : List Span) (logs : List Log) : SpanNode → Prop where
  | mk (n : SpanNode)
      (hlogs : n.logs = logsFor logs n.span.id)
      (hperm : (n.children.map SpanNode.span).Perm
        (tspans.filter (fun c => c.parentSpanId == some n.span.id)))
      (hsorted : List.Sorted spanLE (n.children.map SpanNode.span))
      (hrec : ∀ c ∈ n.children, NodeCorrect tspans logs c) :
      NodeCorrect tspans logs n

/-- An upward ancestor chain inside `tspans`: each element's `parentSpanId`
is the id of the next one. -/
inductive AncChain (tspans : List Span) : List Span → Prop where
  | single (s : Span) (hs : s ∈ tspans) : AncChain tspans [s]
  | cons (c s : Span) (l : List Span) (hc : c ∈ tspans)
      (hp : c.parentSpanId = some s.id) (h : AncChain tspans (s :: l)) :
      AncChain tspans (c :: s :: l)

/-- Full deletion of a trace, as observed on storage: exactly the trace
record, the spans with that `traceId` and the logs owned by those spans are
gone; everything else is retained. -/
def FullyDeleted (st : Storage) (tid : String) (st' : Storage) : Prop :=
  (∀ t, t ∈ st'.traces ↔ t ∈ st.traces ∧ t.id ≠ tid) ∧
  (∀ s, s ∈ st'.spans ↔ s ∈ st.spans ∧ s.traceId ≠ tid) ∧
  (∀ l, l ∈ st'.logs ↔
    l ∈ st.logs ∧ ¬ ∃ s, s ∈ st.spans ∧ s.traceId = tid ∧ s.id = l.spanId)

/-- Fixture: a pending trace `t1` with sample rate 1 and no preserve decision. -/
def exTrace : Trace :=
  { id := "t1", status := .pending, sampleRate := 1, preserve := none, userId := none }

/-- Fixture: a pending root span `s1` of trace `t1`. -/
def exSpan : Span :=
  { id := "s1", traceId := "t1", parentSpanId := none, creationTime := 1,
    spanName := "f", functionName := some "f", startTime := 0, endTime := none,
    duration := none, status := .pending, result := none, error := none,
    metadata := [] }

/-- Fixture: storage holding `exTrace` and `exSpan`. -/
def exSt : Storage :=
  { traces := [exTrace], spans := [exSpan], logs := [], nextId := 9 }

/-- Fixture: tracer-wide defaults (sample 10 percent, 120 minutes, preserve
errors), as filled in by the `Tracer` constructor. -/
def defCfg : DefaultConfig :=
  { sampleRate := mkRat 1 10, retentionMinutes := 120, preserveErrors := true }

/-- Fixture for C2: no hooks, preserve errors, per-call sample rate 1/2 and
retention 0 minutes. -/
def cfgC2 : ExecConfig :=
  { onStart := .absent, onSuccess := .absent, onError := .absent,
    preserveErrors := some true, sampleRate := some (mkRat 1 2),
    retentionMinutes := some 0, logReturn := false }

/-- Fixture for the C3 counterexample: a success hook that throws. -/
def cfgC3x : ExecConfig :=
  { onStart := .absent, onSuccess := .throws "hookboom", onError := .absent,
    preserveErrors := some true, sampleRate := some 1,
    retentionMinutes := some 5, logReturn := false }

/-- Fixture for the C3 witness: hooks present and returning normally. -/
def cfgC3w : ExecConfig :=
  { onStart := .ok, onSuccess := .ok, onError := .ok,
    preserveErrors := some true, sampleRate := some 1,
    retentionMinutes := some 5, logReturn := true }

/-- Fixture for C4: per-call sample-rate override 0. -/
def cfgC4 : ExecConfig :=
  { onStart := .absent, onSuccess := .absent, onError := .absent,
    preserveErrors := some true, sampleRate := some 0,
    retentionMinutes := some 5, logReturn := false }

/-- Fixture for C6: no hooks, per-call sample rate 1. -/
def cfgC6 : ExecConfig :=
  { onStart := .absent, onSuccess := .absent, onError := .absent,
    preserveErrors := some true, sampleRate := some 1,
    retentionMinutes := some 5, logReturn := false }

/-- Fixture for the C5 counterexample: an inbound token that carries the
existing trace `t1` but an empty `spanId` string. -/
def tkC5 : TraceContext :=
  { traceId := "t1", spanId := "", sampleRate := some (mkRat 1 2),
    retentionMinutes := some 5, preserveErrors := some true }

/-- Fixture for the C5 witness: a well formed inbound token for `t1`/`s1`. -/
def tkC5w : TraceContext :=
  { traceId := "t1", spanId := "s1", sampleRate := some (mkRat 1 2),
    retentionMinutes := some 5, preserveErrors := some true }

/-- Fixture for C6: an inbound token for the existing trace `t1` whose
`spanId` references no stored span. -/
def tkC6 : TraceContext :=
  { traceId := "t1", spanId := "sForged", sampleRate := some 1,
    retentionMinutes := some 5, preserveErrors := some true }

/-- Fixture for C9: a trace `t1` previously preserved, sample rate 1. -/
def stC9 : Storage :=
  { traces := [{ id := "t1", status := .pending, sampleRate := 1,
                 preserve := some true, userId := none }],
    spans := [], logs := [], nextId := 3 }

/-- Fixture for the C8 witness: trace `t1` with root span `sA`, child span
`sB` under `sA`, and one log on `sB`. -/
def stC8 : Storage :=
  { traces := [exTrace]
    spans :=
      [{ id := "sA", traceId := "t1", parentSpanId := none, creationTime := 1,
         spanName := "f", functionName := some "f", startTime := 0,
         endTime := none, duration := none, status := .pending, result := none,
         error := none, metadata := [] },
       { id := "sB", traceId := "t1", parentSpanId := some "sA",
         creationTime := 2, spanName := "inner", functionName := none,
         startTime := 1, endTime := none, duration := none, status := .pending,
         result := none, error := none, metadata := [] }]
    logs := [{ id := "l1", spanId := "sB", timestamp := 1, severity := .info,
               message := "hello" }]
    nextId := 5 }

/-- C7: the root branch of `setupTraceContext` calls the `createTrace`
mutation without the `userId` field, although the mutation's argument
validator declares `userId` required; the call therefore fails argument
validation for every sample rate, so no root trace is ever created with a
`userId` (and no `"anonymous"` sentinel is ever recorded). -/
theorem claim7_createTrace_call_lacks_userId (r : ℚ) :
    createTraceArgsValid (setupCreateTraceCall r) = false := rfl

/-- C10: when child-span creation fails inside `createAndRunSpan`, the block
runs against the stand-in handle of `createNoOpSpanAPI()`; the stand-in's
logging and metadata operations leave storage unchanged; and `withSpan` on
the stand-in returns `undefined` with storage unchanged, for every block —
in particular the nested block is never executed. -/
theorem claim10_noop_spanapi (st : Storage)
    (traceId parentSpanId spanName spanName2 : String)
    (preserveErrors createFails : Bool) (startTime now ts : ℚ)
    (sev : Severity) (msg : String) (patch : List (String × String))
    (fn fn2 : SpanBlock) :
    createAndRunSpan st traceId parentSpanId spanName preserveErrors true
        startTime now fn = fn .noOp st ∧
    SpanHandle.logOp .noOp st ts sev msg = st ∧
    SpanHandle.updateMetadataOp .noOp st patch = st ∧
    SpanHandle.withSpanOp .noOp st traceId spanName2 preserveErrors createFails
        startTime now fn2 = (st, .ok none) :=
  ⟨rfl, rfl, rfl, rfl⟩

/-- C4: failing input for the claim that cleanup is scheduled whenever the
effective sample rate is below 1.  With effective sample rate 0 (which is
`< 1`) the `finally` block of `executeTracedHandler` takes the
`if (!sampleRate)` branch and schedules no cleanup job. -/
theorem claim4_rate_zero_schedules_nothing :
    (executeTracedHandler exSt "t1" "s1" true cfgC4 defCfg
        (.returns 7) 0 1).cleanupScheduled = none ∧
    ((0 : ℚ) < 1) := by
  constructor
  · decide
  · decide

/-- C2: failing input for the claim that the preserve mutation completes
before the span-completion mutation and before the cleanup job can run.  On
a handler failure with effective preserve-errors true (sample rate 1/2,
retention 0), the failure path issues the `updateTracePreserve` mutation
only as a floating, un-awaited call (`tracerAPI.preserve()` without `await`),
so its completion is not sequenced before the awaited span completion or the
scheduled cleanup; the run still schedules a cleanup job. -/
theorem claim2_preserve_not_sequenced :
    ((executeTracedHandler exSt "t1" "s1" true cfgC2 defCfg
        (.throws "boom") 0 1).events.contains
        (Event.updateTracePreserve "t1" (some true) false) = true) ∧
    ((executeTracedHandler exSt "t1" "s1" true cfgC2 defCfg
        (.throws "boom") 0 1).events.contains
        (Event.updateTracePreserve "t1" (some true) true) = false) ∧
    ((executeTracedHandler exSt "t1" "s1" true cfgC2 defCfg
        (.throws "boom") 0 1).cleanupScheduled.isSome = true) ∧
    ((executeTracedHandler exSt "t1" "s1" true cfgC2 defCfg
        (.throws "boom") 0 1).result = some ⟨false, none, some "boom"⟩) := by
  refine ⟨?_, ?_, ?_, ?_⟩ <;> decide

/-- C6: failing input for the claim that a forged inbound `spanId` aborts the
invocation before the handler runs.  The token `tkC6` references the existing
trace `t1` but a span id `sForged` that exists nowhere in storage; the
wrapper still runs the handler and returns its success value, because the
`verifySpan` check of `executeTracedHandler` is applied to the freshly
created child span's id rather than to the inbound token's `spanId`. -/
theorem claim6_forged_spanId_handler_runs :
    verifySpan exSt "sForged" = false ∧ tkC6.spanId = "sForged" ∧
    ((createTracedHandlerRun exSt (some tkC6) "f" cfgC6 defCfg
        (.returns 7) 0 1).toOption.map
        (fun o => (o.handlerRan, o.result))
      = some (true, some ⟨true, some 7, none⟩)) := by
  refine ⟨?_, ?_, ?_⟩ <;> decide

/-- C3 counterexample: an invocation whose handler returns the value 7 but
whose configured success hook throws.  The handler ran and returned a value,
yet the wrapper's result is the structured failure
`{success:false, error:"hookboom"}` rather than
`{success:true, data:7, error:undefined}` — the claim, which promises the
success shape whenever the handler returns a value, is false on this input. -/
theorem claim3_counterexample_success_hook :
    ((executeTracedHandler exSt "t1" "s1" true cfgC3x defCfg
        (.returns 7) 0 1).handlerRan = true) ∧
    ((executeTracedHandler exSt "t1" "s1" true cfgC3x defCfg
        (.returns 7) 0 1).result ≠ some ⟨true, some 7, none⟩) ∧
    ((executeTracedHandler exSt "t1" "s1" true cfgC3x defCfg
        (.returns 7) 0 1).result = some ⟨false, none, some "hookboom"⟩) := by
  refine ⟨?_, ?_, ?_⟩ <;> decide

/-- C9 counterexample: `sample(0)` on the existing trace `t1` (previously
preserved, sample rate 1).  The preserve flag is reset to undefined, but the
supplied rate override 0 is dropped by the `if (sampleRate)` truthiness test
of `updateTracePreserve`: the stored sample rate remains 1, not 0 as the
claim requires for a supplied override of 0. -/
theorem claim9_counterexample_zero_override :
    ((findTrace (tracerSample stC9 "t1" (some 0)) "t1").map Trace.sampleRate
      = some 1) ∧
    (some (1 : ℚ) ≠ some (0 : ℚ)) ∧
    ((findTrace (tracerSample stC9 "t1" (some 0)) "t1").map Trace.preserve
      = some none) := by
  refine ⟨?_, ?_, ?_⟩ <;> decide

/-- C5 counterexample: an inbound token that carries the existing trace `t1`
together with an empty `spanId` string.  The invocation creates its span, but
because `createSpan` stores `args.span.parentSpanId ? ... : undefined`, the
new span's parent is absent rather than equal to the token's `spanId` as the
claim requires. -/
theorem claim5_counterexample_empty_spanId :
    tkC5.spanId = "" ∧
    ((setupTraceContext exSt (some tkC5) 0 "f" 1 5 true (some "f") 2).toOption.map
        (fun p => (p.2.spans.filter (fun s => s.id == p.1.spanId)).map
          Span.parentSpanId)
      = some [none]) ∧
    ((none : Option String) ≠ some tkC5.spanId) := by
  refine ⟨?_, ?_, ?_⟩ <;> decide

theorem deleteTrace_fullyDeleted (st : Storage) (tid : String) :
    FullyDeleted st tid (deleteTrace st tid) := by
  refine ⟨?_, ?_, ?_⟩
  · intro t
    simp [deleteTrace, List.mem_filter]
  · intro s
    simp [deleteTrace, List.mem_filter]
  · intro l
    simp [deleteTrace, List.mem_filter, spanIdsOfTrace, List.mem_map]

/-- C1: the cleanup policy of the `cleanupTrace` mutation on an existing
trace.  With `preserve = true` storage is completely unchanged; with
`preserve = false` the trace, its spans and their logs are deleted and
nothing else; with no preserve decision the same full deletion happens
exactly when the drawn random value is at least the trace's current sample
rate, and storage is unchanged when the draw is below it (so a draw uniform
in `[0,1)` keeps the trace with probability the sample rate). -/
theorem claim1_cleanupTrace_policy (st : Storage) (tid : String) (tr : Trace)
    (r : ℚ) (h : findTrace st tid = some tr) :
    (tr.preserve = some true → cleanupTrace st tid r = st) ∧
    (tr.preserve = some false → FullyDeleted st tid (cleanupTrace st tid r)) ∧
    (tr.preserve = none →
      (r < tr.sampleRate → cleanupTrace st tid r = st) ∧
      (tr.sampleRate ≤ r → FullyDeleted st tid (cleanupTrace st tid r))) := by
  refine ⟨?_, ?_, ?_⟩
  · intro hp
    simp [cleanupTrace, h, hp]
  · intro hp
    have : cleanupTrace st tid r = deleteTrace st tid := by
      simp [cleanupTrace, h, hp]
    rw [this]
    exact deleteTrace_fullyDeleted st tid
  · intro hp
    constructor
    · intro hr
      simp [cleanupTrace, h, hp, not_le.mpr hr]
    · intro hr
      have : cleanupTrace st tid r = deleteTrace st tid := by
        simp [cleanupTrace, h, hp, hr]
      rw [this]
      exact deleteTrace_fullyDeleted st tid

/-- C1 witness: the policy theorem applied to the concrete storage `exSt`,
its trace `t1` and the draw value 1. -/
theorem claim1_witness :
    (findTrace exSt "t1" = some exTrace) ∧
    ((exTrace.preserve = some true → cleanupTrace exSt "t1" 1 = exSt) ∧
     (exTrace.preserve = some false →
       FullyDeleted exSt "t1" (cleanupTrace exSt "t1" 1)) ∧
     (exTrace.preserve = none →
       (1 < exTrace.sampleRate → cleanupTrace exSt "t1" 1 = exSt) ∧
       (exTrace.sampleRate ≤ 1 →
         FullyDeleted exSt "t1" (cleanupTrace exSt "t1" 1)))) :=
  ⟨by decide, claim1_cleanupTrace_policy exSt "t1" exTrace 1 (by decide)⟩

theorem find_after_patch {α : Type} (p : α → Bool) (f : α → α)
    (hf : ∀ a, p a = true → p (f a) = true) :
    ∀ (l : List α) (a : α), l.find? p = some a →
      (l.map (fun x => if p x then f x else x)).find? p = some (f a) := by
  intro l
  induction l with
  | nil =>
    intro a ha
    simp at ha
  | cons x xs ih =>
    intro a ha
    by_cases hx : p x = true
    · rw [List.find?_cons_of_pos _ hx] at ha
      injection ha with ha
      subst ha
      rw [List.map_cons, if_pos hx, List.find?_cons_of_pos _ (hf x hx)]
    · rw [List.find?_cons_of_neg _ hx] at ha
      rw [List.map_cons, if_neg hx, List.find?_cons_of_neg _ hx]
      exact ih a ha

theorem findTrace_patchTrace (st : Storage) (tid : String) (f : Trace → Trace)
    (hid : ∀ a, (f a).id = a.id) (tr : Trace) (h : findTrace st tid = some tr) :
    findTrace
      { st with traces := st.traces.map (fun t => if t.id == tid then f t else t) }
      tid = some (f tr) := by
  simp only [findTrace] at h ⊢
  exact find_after_patch _ f (fun a ha => by rw [hid a]; exact ha) st.traces tr h

/-- C9 (amended): `sample(rateOverride?)` on an existing trace resets its
preserve flag to undefined (re-enabling probabilistic cleanup) and leaves the
other trace fields alone; the sample rate is overwritten when a non-zero
override is supplied, while a zero or absent override leaves the sample rate
unchanged (the zero case being the correction forced by the
`if (sampleRate)` truthiness test of `updateTracePreserve`). -/
theorem claim9_sample_resets_preserve (st : Storage) (tid : String)
    (tr : Trace) (rate? : Option ℚ) (h : findTrace st tid = some tr) :
    ∃ tr', findTrace (tracerSample st tid rate?) tid = some tr' ∧
      tr'.preserve = none ∧
      tr'.id = tr.id ∧ tr'.status = tr.status ∧ tr'.userId = tr.userId ∧
      (∀ q, rate? = some q → q ≠ 0 → tr'.sampleRate = q) ∧
      (∀ q, rate? = some q → q = 0 → tr'.sampleRate = tr.sampleRate) ∧
      (rate? = none → tr'.sampleRate = tr.sampleRate) := by
  have hver : verifyTrace st tid = true := by
    simp [verifyTrace, h]
  cases rate? with
  | none =>
    have hrun : tracerSample st tid none =
        { st with traces := st.traces.map (fun t =>
            if t.id == tid then { t with preserve := none } else t) } := by
      simp [tracerSample, updateTracePreserve, patchTrace, hver]
    refine ⟨{ tr with preserve := none }, ?_, rfl, rfl, rfl, rfl, ?_, ?_, ?_⟩
    · rw [hrun]
      exact findTrace_patchTrace st tid (fun t => { t with preserve := none })
        (fun a => rfl) tr h
    · intro q hq
      exact absurd hq (by simp)
    · intro q hq
      exact absurd hq (by simp)
    · intro _
      rfl
  | some q =>
    have hrun : tracerSample st tid (some q) =
        { st with traces := st.traces.map (fun t =>
            if t.id == tid then
              { t with
                preserve := none
                sampleRate := if q ≠ 0 then q else t.sampleRate }
            else t) } := by
      simp [tracerSample, updateTracePreserve, patchTrace, hver]
    refine ⟨{ tr with
        preserve := none
        sampleRate := if q ≠ 0 then q else tr.sampleRate },
      ?_, rfl, rfl, rfl, rfl, ?_, ?_, ?_⟩
    · rw [hrun]
      exact findTrace_patchTrace st tid
        (fun t => { t with
          preserve := none
          sampleRate := if q ≠ 0 then q else t.sampleRate })
        (fun a => rfl) tr h
    · intro q' hq' hq0
      injection hq' with hq'
      subst hq'
      simp [hq0]
    · intro q' hq' hq0
      injection hq' with hq'
      subst hq'
      simp [hq0]
    · intro hq
      exact absurd hq (by simp)

/-- C9 witness: the amended theorem applied to the concrete storage `stC9`
and the override 1/2. -/
theorem claim9_witness :
    (findTrace stC9 "t1" =
      some ⟨"t1", .pending, 1, some true, none⟩) ∧
    (∃ tr', findTrace (tracerSample stC9 "t1" (some (mkRat 1 2))) "t1"
        = some tr' ∧
      tr'.preserve = none ∧
      tr'.id = "t1" ∧ tr'.status = .pending ∧ tr'.userId = none ∧
      (∀ q, some (mkRat 1 2) = some q → q ≠ 0 → tr'.sampleRate = q) ∧
      (∀ q, some (mkRat 1 2) = some q → q = 0 →
        tr'.sampleRate = (1 : ℚ)) ∧
      (some (mkRat 1 2) = none → tr'.sampleRate = (1 : ℚ))) :=
  ⟨by decide,
    claim9_sample_resets_preserve stC9 "t1" ⟨"t1", .pending, 1, some true, none⟩
      (some (mkRat 1 2)) (by decide)⟩

/-- C5 (amended): for every invocation whose inbound token carries a truthy
`traceId` and a non-empty `spanId`: no trace record and no log is created,
exactly one new span is created, under the token's trace and parented at the
token's `spanId`, and the outbound token pairs the new span's id with the
inbound token's `sampleRate`/`retentionMinutes`/`preserveErrors` unchanged
(an empty inbound `spanId` instead yields a span with no parent, the
correction forced by the counterexample). -/
theorem claim5_child_span_inherits (st : Storage) (tc : TraceContext)
    (startTime : ℚ) (functionName : String) (sr rm : ℚ) (pe : Bool)
    (sfn : Option String) (now : ℚ)
    (htr : tc.traceId ≠ "") (hsp : tc.spanId ≠ "") :
    ∃ res st',
      setupTraceContext st (some tc) startTime functionName sr rm pe sfn now
        = .ok (res, st') ∧
      res.isRoot = false ∧
      res.traceId = tc.traceId ∧
      res.traceContext.traceId = tc.traceId ∧
      res.traceContext.spanId = res.spanId ∧
      res.traceContext.sampleRate = tc.sampleRate ∧
      res.traceContext.retentionMinutes = tc.retentionMinutes ∧
      res.traceContext.preserveErrors = tc.preserveErrors ∧
      st'.traces = st.traces ∧
      st'.logs = st.logs ∧
      ∃ ns, st'.spans = st.spans ++ [ns] ∧ ns.id = res.spanId ∧
        ns.traceId = tc.traceId ∧ ns.parentSpanId = some tc.spanId := by
  simp only [setupTraceContext, createSpan, if_pos htr]
  refine ⟨_, _, rfl, rfl, rfl, rfl, rfl, rfl, rfl, rfl, rfl, rfl, _, rfl,
    rfl, rfl, ?_⟩
  simp [hsp]

/-- C5 witness: the amended theorem applied to the concrete storage `exSt`
and the well formed token `tkC5w`. -/
theorem claim5_witness :
    (tkC5w.traceId ≠ "") ∧ (tkC5w.spanId ≠ "") ∧
    (∃ res st',
      setupTraceContext exSt (some tkC5w) 0 "f" 1 5 true (some "f") 2
        = .ok (res, st') ∧
      res.isRoot = false ∧
      res.traceId = tkC5w.traceId ∧
      res.traceContext.traceId = tkC5w.traceId ∧
      res.traceContext.spanId = res.spanId ∧
      res.traceContext.sampleRate = tkC5w.sampleRate ∧
      res.traceContext.retentionMinutes = tkC5w.retentionMinutes ∧
      res.traceContext.preserveErrors = tkC5w.preserveErrors ∧
      st'.traces = exSt.traces ∧
      st'.logs = exSt.logs ∧
      ∃ ns, st'.spans = exSt.spans ++ [ns] ∧ ns.id = res.spanId ∧
        ns.traceId = tkC5w.traceId ∧ ns.parentSpanId = some tkC5w.spanId) :=
  ⟨by decide, by decide,
    claim5_child_span_inherits exSt tkC5w 0 "f" 1 5 true (some "f") 2
      (by decide) (by decide)⟩

theorem tryPhase_of_checks (st : Storage) (traceId spanId : String)
    (config : ExecConfig) (handler : HandlerSpec)
    (hT : traceId = "" ∨ verifyTrace st traceId = true)
    (hS : spanId = "" ∨ verifySpan st spanId = true)
    (hstart : config.onStart.noThrow = true)
    (hsucc : config.onSuccess.noThrow = true) :
    tryPhase st traceId spanId config handler =
      (true, match handler with
        | .returns d => .ok d
        | .throws m => .error m) := by
  have h1 : ¬ (traceId ≠ "" ∧ verifyTrace st traceId = false) := by
    rcases hT with h | h
    · exact fun hc => hc.1 h
    · intro hc
      rw [h] at hc
      exact absurd hc.2 (by simp)
  have h2 : ¬ (spanId ≠ "" ∧ verifySpan st spanId = false) := by
    rcases hS with h | h
    · exact fun hc => hc.1 h
    · intro hc
      rw [h] at hc
      exact absurd hc.2 (by simp)
  unfold tryPhase
  rw [if_neg h1, if_neg h2]
  cases hcs : config.onStart with
  | throws m =>
    rw [hcs] at hstart
    exact absurd hstart (by simp [HookSpec.noThrow])
  | absent =>
    cases handler with
    | throws m => rfl
    | returns d =>
      cases hcs2 : config.onSuccess with
      | throws m =>
        rw [hcs2] at hsucc
        exact absurd hsucc (by simp [HookSpec.noThrow])
      | absent => rfl
      | ok => rfl
  | ok =>
    cases handler with
    | throws m => rfl
    | returns d =>
      cases hcs2 : config.onSuccess with
      | throws m =>
        rw [hcs2] at hsucc
        exact absurd hsucc (by simp [HookSpec.noThrow])
      | absent => rfl
      | ok => rfl

/-- C3 (amended): for every `executeTracedHandler` invocation that passes the
forged-id checks and whose configured before/success/error hooks do not
themselves throw: a handler that returns `d` yields the tagged result
`{success:true, data:d, error:undefined}`, and a handler that throws with
message `m` yields `{success:false, data:undefined, error:m}`; in both cases
nothing is re-raised to the immediate caller (the hook proviso is the
correction forced by the counterexample: a throwing hook takes the failure
path or escapes, as §4.1 of the specification itself describes). -/
theorem claim3_result_contract (st : Storage) (traceId spanId : String)
    (isRoot : Bool) (config : ExecConfig) (default : DefaultConfig)
    (handler : HandlerSpec) (startTime now : ℚ)
    (hT : traceId = "" ∨ verifyTrace st traceId = true)
    (hS : spanId = "" ∨ verifySpan st spanId = true)
    (hstart : config.onStart.noThrow = true)
    (hsucc : config.onSuccess.noThrow = true)
    (herr : config.onError.noThrow = true) :
    (∀ d, handler = .returns d →
      (executeTracedHandler st traceId spanId isRoot config default handler
          startTime now).result = some ⟨true, some d, none⟩ ∧
      (executeTracedHandler st traceId spanId isRoot config default handler
          startTime now).thrown = none) ∧
    (∀ m, handler = .throws m →
      (executeTracedHandler st traceId spanId isRoot config default handler
          startTime now).result = some ⟨false, none, some m⟩ ∧
      (executeTracedHandler st traceId spanId isRoot config default handler
          startTime now).thrown = none) := by
  have htp := tryPhase_of_checks st traceId spanId config handler hT hS hstart hsucc
  constructor
  · rintro d rfl
    unfold executeTracedHandler
    rw [htp]
    exact ⟨rfl, rfl⟩
  · rintro m rfl
    unfold executeTracedHandler catchPath
    rw [htp]
    cases hce : config.onError with
    | throws m2 =>
      rw [hce] at herr
      exact absurd herr (by simp [HookSpec.noThrow])
    | absent => exact ⟨rfl, rfl⟩
    | ok => exact ⟨rfl, rfl⟩

/-- C3 witness: the amended contract applied to the concrete storage `exSt`
with well behaved hooks (`cfgC3w`) and the handler returning 7. -/
theorem claim3_witness :
    ("t1" = "" ∨ verifyTrace exSt "t1" = true) ∧
    ("s1" = "" ∨ verifySpan exSt "s1" = true) ∧
    cfgC3w.onStart.noThrow = true ∧
    cfgC3w.onSuccess.noThrow = true ∧
    cfgC3w.onError.noThrow = true ∧
    ((∀ d, (HandlerSpec.returns 7) = .returns d →
      (executeTracedHandler exSt "t1" "s1" true cfgC3w defCfg
          (.returns 7) 0 1).result = some ⟨true, some d, none⟩ ∧
      (executeTracedHandler exSt "t1" "s1" true cfgC3w defCfg
          (.returns 7) 0 1).thrown = none) ∧
    (∀ m, (HandlerSpec.returns 7) = .throws m →
      (executeTracedHandler exSt "t1" "s1" true cfgC3w defCfg
          (.returns 7) 0 1).result = some ⟨false, none, some m⟩ ∧
      (executeTracedHandler exSt "t1" "s1" true cfgC3w defCfg
          (.returns 7) 0 1).thrown = none)) :=
  ⟨by decide, by decide, by decide, by decide, by decide,
    claim3_result_contract exSt "t1" "s1" true cfgC3w defCfg (.returns 7) 0 1
      (by decide) (by decide) (by decide) (by decide) (by decide)⟩

theorem span_buildNode (tspans : List Span) (logs : List Log) (fuel : Nat)
    (s : Span) : (buildNode tspans logs fuel s).span = s := by
  cases fuel <;> rfl

theorem ancChain_mem {tspans l : List Span} (h : AncChain tspans l) :
    ∀ x ∈ l, x ∈ tspans := by
  induction h with
  | single s hs =>
    intro x hx
    rw [List.mem_singleton] at hx
    subst hx
    exact hs
  | cons c s l hc hp h ih =>
    intro x hx
    rcases List.mem_cons.mp hx with rfl | hx'
    · exact hc
    · exact ih x hx'

theorem ancChain_pairwise {tspans l : List Span} (hpc : ParentBefore tspans)
    (h : AncChain tspans l) :
    l.Pairwise (fun a b => b.creationTime < a.creationTime) := by
  induction h with
  | single s hs => simp
  | cons c s l hc hp h ih =>
    rw [List.pairwise_cons]
    refine ⟨?_, ih⟩
    intro x hx
    have hs : s ∈ tspans := ancChain_mem h s (List.mem_cons_self s l)
    have hcs : s.creationTime < c.creationTime := hpc c hc s hs hp
    rcases List.mem_cons.mp hx with rfl | hx'
    · exact hcs
    · exact lt_trans ((List.pairwise_cons.mp ih).1 x hx') hcs

theorem ancChain_length {tspans l : List Span} (hpc : ParentBefore tspans)
    (h : AncChain tspans l) : l.length ≤ tspans.length := by
  have hnd : l.Nodup := by
    refine (ancChain_pairwise hpc h).imp ?_
    intro a b hab he
    rw [he] at hab
    exact lt_irrefl _ hab
  exact (List.subperm_of_subset hnd (fun x hx => ancChain_mem h x hx)).length_le

theorem buildNode_nodeCorrect (tspans : List Span) (logs : List Log)
    (hpc : ParentBefore tspans) :
    ∀ (fuel : Nat) (s : Span) (anc : List Span),
      AncChain tspans (s :: anc) →
      tspans.length ≤ fuel + anc.length →
      NodeCorrect tspans logs (buildNode tspans logs fuel s) := by
  intro fuel
  induction fuel with
  | zero =>
    intro s anc hch hlen
    exfalso
    have hb := ancChain_length hpc hch
    simp [List.length_cons] at hb hlen
    omega
  | succ fuel ih =>
    intro s anc hch hlen
    have hmap :
        (((childSort (tspans.filter (fun c => c.parentSpanId == some s.id))).map
            (buildNode tspans logs fuel)).map SpanNode.span)
          = childSort (tspans.filter (fun c => c.parentSpanId == some s.id)) := by
      rw [List.map_map]
      have he : ∀ c ∈ childSort (tspans.filter
          (fun c => c.parentSpanId == some s.id)),
          (SpanNode.span ∘ buildNode tspans logs fuel) c = id c := by
        intro c _
        simp [span_buildNode]
      rw [List.map_congr_left he, List.map_id]
    show NodeCorrect tspans logs
      ⟨s, logsFor logs s.id,
        (childSort (tspans.filter (fun c => c.parentSpanId == some s.id))).map
          (buildNode tspans logs fuel)⟩
    refine NodeCorrect.mk _ rfl ?_ ?_ ?_
    · rw [hmap]
      exact List.perm_insertionSort spanLE _
    · rw [hmap]
      exact List.sorted_insertionSort spanLE _
    · intro c' hc'
      obtain ⟨c, hcmem, rfl⟩ := List.mem_map.mp hc'
      rw [childSort, List.mem_insertionSort] at hcmem
      have hcts : c ∈ tspans := (List.mem_filter.mp hcmem).1
      have hcp : c.parentSpanId = some s.id := by
        have hb := (List.mem_filter.mp hcmem).2
        simpa using hb
      refine ih c (s :: anc) (AncChain.cons c s anc hcts hcp hch) ?_
      simp only [List.length_cons]
      omega

/-- C8: for every storage whose spans satisfy the parent-created-before-child
invariant, `getTrace` returns `null` exactly on nonexistent trace ids, and on
an existing trace returns a forest whose top level consists of exactly the
trace's parentless spans in ascending creation order, and in which every
returned node carries exactly the stored logs owned by its span and has as
children exactly the stored spans of the trace whose `parentSpanId` is its
span's id, in ascending creation order, recursively. -/
theorem claim8_getTrace_tree (st : Storage) (hpc : ParentBefore st.spans) :
    (∀ tid, findTrace st tid = none → getTrace st tid = none) ∧
    (∀ tid ct, getTrace st tid = some ct →
      ((ct.spans.map SpanNode.span).Perm
          ((st.spans.filter (fun s => s.traceId == tid)).filter
            (fun s => s.parentSpanId == none)) ∧
        List.Sorted spanLE (ct.spans.map SpanNode.span)) ∧
      (∀ n ∈ ct.spans,
        NodeCorrect (st.spans.filter (fun s => s.traceId == tid)) st.logs n)) := by
  constructor
  · intro tid h
    simp [getTrace, h]
  · intro tid ct h
    rcases hft : findTrace st tid with _ | tr
    · unfold getTrace at h
      rw [hft] at h
      exact absurd h (by simp)
    · unfold getTrace at h
      rw [hft] at h
      have hct : ct =
          ⟨tr,
            (childSort ((st.spans.filter (fun s => s.traceId == tid)).filter
              (fun s => s.parentSpanId == none))).map
              (buildNode (st.spans.filter (fun s => s.traceId == tid)) st.logs
                (st.spans.filter (fun s => s.traceId == tid)).length)⟩ :=
        (Option.some.inj h).symm
      subst hct
      have hpc' : ParentBefore (st.spans.filter (fun s => s.traceId == tid)) :=
        fun c hc p hp hpar =>
          hpc c (List.mem_filter.mp hc).1 p (List.mem_filter.mp hp).1 hpar
      have hmap :
          ((childSort ((st.spans.filter (fun s => s.traceId == tid)).filter
              (fun s => s.parentSpanId == none))).map
              (buildNode (st.spans.filter (fun s => s.traceId == tid)) st.logs
                (st.spans.filter (fun s => s.traceId == tid)).length)).map
            SpanNode.span
          = childSort ((st.spans.filter (fun s => s.traceId == tid)).filter
              (fun s => s.parentSpanId == none)) := by
        rw [List.map_map]
        have he : ∀ c ∈ childSort ((st.spans.filter
            (fun s => s.traceId == tid)).filter
            (fun s => s.parentSpanId == none)),
            (SpanNode.span ∘ buildNode (st.spans.filter
              (fun s => s.traceId == tid)) st.logs
              (st.spans.filter (fun s => s.traceId == tid)).length) c = id c := by
          intro c _
          simp [span_buildNode]
        rw [List.map_congr_left he, List.map_id]
      refine ⟨⟨?_, ?_⟩, ?_⟩
      · rw [hmap]
        exact List.perm_insertionSort spanLE _
      · rw [hmap]
        exact List.sorted_insertionSort spanLE _
      · intro n hn
        obtain ⟨r, hr, rfl⟩ := List.mem_map.mp hn
        rw [childSort, List.mem_insertionSort] at hr
        have hrts : r ∈ st.spans.filter (fun s => s.traceId == tid) :=
          (List.mem_filter.mp hr).1
        refine buildNode_nodeCorrect _ st.logs hpc' _ r []
          (AncChain.single r hrts) ?_
        simp

/-- C8 witness: the tree-correctness theorem applied to the concrete storage
`stC8` (trace `t1`, root span `sA`, child span `sB`, one log on `sB`). -/
theorem claim8_witness :
    ParentBefore stC8.spans ∧
    ((∀ tid, findTrace stC8 tid = none → getTrace stC8 tid = none) ∧
     (∀ tid ct, getTrace stC8 tid = some ct →
       ((ct.spans.map SpanNode.span).Perm
           ((stC8.spans.filter (fun s => s.traceId == tid)).filter
             (fun s => s.parentSpanId == none)) ∧
         List.Sorted spanLE (ct.spans.map SpanNode.span)) ∧
       (∀ n ∈ ct.spans,
         NodeCorrect (stC8.spans.filter (fun s => s.traceId == tid))
           stC8.logs n))) :=
  ⟨by unfold ParentBefore; decide,
    claim8_getTrace_tree stC8 (by unfold ParentBefore; decide)⟩

end ConvexTracer
